import Mathlib

/-!
Shallow embedding of the Dubbo proxy `ConnectionManager`
(`source/extensions/filters/network/dubbo_proxy/conn_manager.cc`).

The connection session is modelled as an explicit state `CMState`.
External collaborators are modelled as oracles:

* the `Decoder` is a script, a list of `DecodeStep`s, each step being the
  net effect of one `decoder_->onData(request_buffer_, underflow)` call
  (new Active Messages created through `newDecoderEventHandler`, bytes
  consumed from the buffer, returned `FilterStatus`, `underflow` flag, or
  a raised decode exception);
* the `Network::Connection` is a record of its open/closed state, the
  list of performed writes and the list of close operations;
* statistics counters are plain naturals.

The intrusive-list helpers `moveIntoList` / `removeFromList`, the Envoy
dispatcher's `deferredDelete`, and `ActiveMessage::onReset` are code of
this repository that is not part of the excerpted source file; where a
claim depends on them they are modelled from the spec and marked as such
in their doc comments.
-/

namespace DubboProxy

/-- Message kinds of the Dubbo protocol (`MessageType`). -/
inductive MessageType
  | Request
  | Response
  | Oneway
  | Exception
deriving DecidableEq, Repr

/-- Response status codes; only `Ok` is relevant to the session core. -/
inductive ResponseStatus
  | Ok
  | ServerError
deriving DecidableEq, Repr

/-- Decoded envelope of one RPC unit (`MessageMetadata`). -/
structure MessageMetadata where
  message_type : MessageType
  response_status : Option ResponseStatus
  event_flag : Bool
deriving DecidableEq, Repr

/-- One in-flight exchange (`ActiveMessage`); `metadata` is `none` until the
decoder produces the envelope; `filter_chain_built` records that
`createFilterChain` ran at creation. -/
structure ActiveMessage where
  id : Nat
  metadata : Option MessageMetadata
  filter_chain_built : Bool
deriving DecidableEq, Repr

/-- Connection state (`Network::Connection::State`), collapsed to the open
vs. not-open distinction the session tests. -/
inductive ConnState
  | Open
  | Closed
deriving DecidableEq, Repr

/-- Close flavors used by the session (`Network::ConnectionCloseType`). -/
inductive CloseType
  | FlushWrite
  | NoFlush
deriving DecidableEq, Repr

/-- Result of a network filter callback (`Network::FilterStatus`). -/
inductive FilterStatus
  | Continue
  | StopIteration
deriving DecidableEq, Repr

/-- Connection events delivered to `onEvent` (`Network::ConnectionEvent`). -/
inductive ConnectionEvent
  | RemoteClose
  | LocalClose
  | Connected
deriving DecidableEq, Repr

/-- Outcome of `DirectResponse::encode`
(`DubboFilters::DirectResponse::ResponseType`); the enum has exactly these
three values, so the `NOT_REACHED` default branch of `sendLocalReply` is
unreachable. -/
inductive ResponseType
  | SuccessReply
  | ErrorReply
  | Exception
deriving DecidableEq, Repr

/-- Encoded output buffers; a heartbeat reply is determined by the metadata
it encodes, any other encoded payload is abstract. -/
inductive Buffer
  | heartbeat (md : MessageMetadata)
  | payload (n : Nat)
deriving DecidableEq, Repr

/-- The downstream connection, as the session observes and drives it:
current state, the ordered record of `write(buffer, end_stream)` calls and
of `close(type)` calls. -/
structure Connection where
  state : ConnState
  writes : List (Buffer × Bool)
  closes : List CloseType
deriving DecidableEq, Repr

/-- The `DubboFilterStats` counters touched by the session. -/
structure Stats where
  request_event : Nat
  request_decoding_error : Nat
  local_response_success : Nat
  local_response_error : Nat
  local_response_business_exception : Nat
  cx_destroy_local_with_active_rq : Nat
  cx_destroy_remote_with_active_rq : Nat
deriving DecidableEq, Repr

/-- The connection session (`ConnectionManager`) state: the read buffer
(tracked by length), the Message Registry `active_message_list_`
(front = `begin()`), the `stopped_` and `half_closed_` flags, the
connection, the counters, the dispatcher's deferred-deletion queue and a
counter producing fresh message ids. -/
structure CMState where
  request_buffer : Nat
  active_message_list : List ActiveMessage
  stopped : Bool
  half_closed : Bool
  conn : Connection
  stats : Stats
  deferred_deletes : List ActiveMessage
  next_id : Nat
deriving DecidableEq, Repr

/-- Record a `connection().close(t)` call. -/
def closeConn (t : CloseType) (s : CMState) : CMState :=
  { s with conn := { s.conn with state := ConnState.Closed, closes := s.conn.closes ++ [t] } }

/-- Record a `connection().write(buf, end_stream)` call. -/
def writeConn (buf : Buffer) (end_stream : Bool) (s : CMState) : CMState :=
  { s with conn := { s.conn with writes := s.conn.writes ++ [(buf, end_stream)] } }

/-- Increment `stats_.request_decoding_error_`. -/
def incDecodingError (s : CMState) : CMState :=
  { s with stats := { s.stats with request_decoding_error := s.stats.request_decoding_error + 1 } }

/-- Increment `stats_.request_event_`. -/
def incRequestEvent (s : CMState) : CMState :=
  { s with stats := { s.stats with request_event := s.stats.request_event + 1 } }

/-- Increment the destroy-with-active-request counter selected by
`local_reset` (one `resetAllMessages` loop iteration's counter effect). -/
def incDestroy (local_reset : Bool) (st : Stats) : Stats :=
  if local_reset then
    { st with cx_destroy_local_with_active_rq := st.cx_destroy_local_with_active_rq + 1 }
  else
    { st with cx_destroy_remote_with_active_rq := st.cx_destroy_remote_with_active_rq + 1 }

/-- Bump the destroy-with-active-request counter selected by `local_reset`
by `n`; the net counter effect of `n` sweep iterations. -/
def addDestroy (local_reset : Bool) (n : Nat) (st : Stats) : Stats :=
  if local_reset then
    { st with cx_destroy_local_with_active_rq := st.cx_destroy_local_with_active_rq + n }
  else
    { st with cx_destroy_remote_with_active_rq := st.cx_destroy_remote_with_active_rq + n }

/-- Embedding of `ConnectionManager::newDecoderEventHandler` (lines 82-89):
creates an Active Message with its filter chain built, links it into the
registry, and returns `(*active_message_list_.begin()).get()` together with
the new state. Modelled from the spec: `LinkedObject::moveIntoList` is not
part of the excerpted source; the spec states the new message is linked at
the tail of the Message Registry, so linking is tail insertion. -/
def newDecoderEventHandler (md : Option MessageMetadata) (s : CMState) :
    Option ActiveMessage × CMState :=
  let new_message : ActiveMessage :=
    { id := s.next_id, metadata := md, filter_chain_built := true }
  let s1 : CMState :=
    { s with active_message_list := s.active_message_list ++ [new_message],
             next_id := s.next_id + 1 }
  (s1.active_message_list.head?, s1)

/-- Embedding of `ConnectionManager::deferredMessage` (lines 183-189):
no-op when the message is not linked (`inserted()` is membership in the
registry); otherwise `message.removeFromList(active_message_list_)` unlinks
it synchronously — the call is evaluated as the argument of
`dispatcher().deferredDelete(...)` — and the dispatcher defers only the
destruction, modelled by appending to `deferred_deletes`. Modelled from the
spec: `removeFromList` / `deferredDelete` are not part of the excerpted
source; `removeFromList` removes the message from the list and returns
ownership of it (the spec's single-owner registry), `deferredDelete` holds
that ownership until the current event-processing turn ends. -/
def deferredMessage (mid : Nat) (s : CMState) : CMState :=
  match s.active_message_list.find? (fun m => m.id == mid) with
  | none => s
  | some m =>
      { s with active_message_list := s.active_message_list.eraseP (fun x => x.id == mid),
               deferred_deletes := s.deferred_deletes ++ [m] }

/-- Modelled from the spec: `ActiveMessage::onReset` is not part of the
excerpted source; the spec states each reset notification removes the
message from the registry via deferred removal (4.6/4.7), i.e. the front
message's reset notification calls `deferredMessage` on itself. -/
def onResetFront (s : CMState) : CMState :=
  match s.active_message_list.head? with
  | none => s
  | some m => deferredMessage m.id s

/-- The `while (!active_message_list_.empty())` loop of
`ConnectionManager::resetAllMessages` (lines 191-203), fuelled: each
iteration increments the counter selected by `local_reset` and invokes the
front message's reset notification. -/
def resetAllMessagesFuel (local_reset : Bool) : Nat → CMState → CMState
  | 0, s => s
  | fuel + 1, s =>
      if s.active_message_list.isEmpty then s
      else
        resetAllMessagesFuel local_reset fuel
          (onResetFront { s with stats := incDestroy local_reset s.stats })

/-- Embedding of `ConnectionManager::resetAllMessages`: each iteration's
reset notification unlinks the front message, so the loop performs exactly
one iteration per registry entry; fuel equal to the registry length is
exact. -/
def resetAllMessages (local_reset : Bool) (s : CMState) : CMState :=
  resetAllMessagesFuel local_reset s.active_message_list.length s

/-- One `decoder_->onData(request_buffer_, underflow)` call of the dispatch
loop, as the session observes it: `step created consumed status underflow`
is a normal return after creating `created` messages and consuming
`consumed` buffer bytes; `raiseErr created consumed` is a call that raises
an `EnvoyException` after those effects. -/
inductive DecodeStep
  | step (created : List (Option MessageMetadata)) (consumed : Nat)
      (status : FilterStatus) (underflow : Bool)
  | raiseErr (created : List (Option MessageMetadata)) (consumed : Nat)
deriving DecidableEq, Repr

/-- Messages a decoder call creates, each through
`newDecoderEventHandler`. -/
def createMessages (created : List (Option MessageMetadata)) (s : CMState) : CMState :=
  created.foldl (fun t md => (newDecoderEventHandler md t).2) s

/-- Bytes a decoder call drains from `request_buffer_`. -/
def drainBuffer (consumed : Nat) (s : CMState) : CMState :=
  { s with request_buffer := s.request_buffer - consumed }

/-- State effect of one decoder call. -/
def applyStep (created : List (Option MessageMetadata)) (consumed : Nat) (s : CMState) : CMState :=
  drainBuffer consumed (createMessages created s)

/-- The `while (!underflow)` loop inside `ConnectionManager::dispatch`
(lines 121-129), run against the decoder script. Returns the state when
the loop exits, the unconsumed remainder of the script, and whether the
loop was exited by a raised decode exception. An exhausted script behaves
as an underflow report with no effect. -/
def runLoop : List DecodeStep → CMState → CMState × List DecodeStep × Bool
  | [], s => (s, [], false)
  | DecodeStep.step created consumed status underflow :: rest, s =>
      let s1 := applyStep created consumed s
      if status = FilterStatus.StopIteration then ({ s1 with stopped := true }, rest, false)
      else if underflow then (s1, rest, false)
      else runLoop rest s1
  | DecodeStep.raiseErr created consumed :: rest, s =>
      (applyStep created consumed s, rest, true)

/-- Embedding of `ConnectionManager::dispatch` (lines 110-137): no-op on an
empty buffer, no-op while stopped; otherwise runs the decode loop; a raised
decode exception is caught, the connection is closed with `NoFlush`, the
decode-error counter is incremented, and all messages are reset with
`local_reset = true`. -/
def dispatch (script : List DecodeStep) (s : CMState) : CMState × List DecodeStep :=
  if s.request_buffer = 0 then (s, script)
  else if s.stopped then (s, script)
  else
    let r := runLoop script s
    if r.2.2 then
      (resetAllMessages true (incDecodingError (closeConn CloseType.NoFlush r.1)), r.2.1)
    else (r.1, r.2.1)

/-- The `metadata && metadata->message_type() == MessageType::Oneway` test
of `ConnectionManager::onData` on `*active_message_list_.begin()`. -/
def frontIsOneway (s : CMState) : Bool :=
  match s.active_message_list.head? with
  | some m =>
      match m.metadata with
      | some md => decide (md.message_type = MessageType.Oneway)
      | none => false
  | none => false

/-- Embedding of `ConnectionManager::onData` (lines 28-55): moves the data
into the read buffer, dispatches, and on `end_stream` either records the
one-way half-close (when stopped with a Oneway front message) or resets all
messages with `local_reset = false` and closes with `FlushWrite`; always
returns `StopIteration`. -/
def onData (script : List DecodeStep) (data_len : Nat) (end_stream : Bool) (s : CMState) :
    (CMState × List DecodeStep) × FilterStatus :=
  let s0 : CMState := { s with request_buffer := s.request_buffer + data_len }
  let r := dispatch script s0
  if end_stream then
    if r.1.stopped && frontIsOneway r.1 then
      (({ r.1 with half_closed := true }, r.2), FilterStatus.StopIteration)
    else
      ((closeConn CloseType.FlushWrite (resetAllMessages false r.1), r.2),
        FilterStatus.StopIteration)
  else (r, FilterStatus.StopIteration)

/-- Embedding of `ConnectionManager::onHeartbeat` (lines 91-108): bumps the
request-event counter, then returns unchanged metadata if the connection is
not open; otherwise rewrites the metadata to an Ok/Response/event reply,
encodes it, and writes the reply without closing. The mutated metadata is
returned alongside the state (in-place mutation of the shared pointer). -/
def onHeartbeat (md : MessageMetadata) (s : CMState) : CMState × MessageMetadata :=
  let s1 := incRequestEvent s
  if s1.conn.state ≠ ConnState.Open then (s1, md)
  else
    let md1 : MessageMetadata :=
      { md with response_status := some ResponseStatus.Ok,
                message_type := MessageType.Response,
                event_flag := true }
    (writeConn (Buffer.heartbeat md1) false s1, md1)

/-- Embedding of `ConnectionManager::sendLocalReply` (lines 139-168): no-op
when the connection is not open; otherwise writes the buffer the encode
produced (`rt` is the reported `ResponseType`, `buf` the encoded output),
closes with `FlushWrite` when `end_stream` is set, and routes the outcome
to the matching counter; the `switch` covers every `ResponseType` value, so
the aborting `NOT_REACHED` default branch has no counterpart here. -/
def sendLocalReply (rt : ResponseType) (buf : Buffer) (end_stream : Bool) (s : CMState) :
    CMState :=
  if s.conn.state ≠ ConnState.Open then s
  else
    let s1 := writeConn buf end_stream s
    let s2 := if end_stream then closeConn CloseType.FlushWrite s1 else s1
    match rt with
    | ResponseType.SuccessReply =>
        { s2 with stats :=
            { s2.stats with local_response_success := s2.stats.local_response_success + 1 } }
    | ResponseType.ErrorReply =>
        { s2 with stats :=
            { s2.stats with local_response_error := s2.stats.local_response_error + 1 } }
    | ResponseType.Exception =>
        { s2 with stats :=
            { s2.stats with local_response_business_exception :=
                s2.stats.local_response_business_exception + 1 } }

/-- Embedding of `ConnectionManager::continueDecoding` (lines 170-181):
clears `stopped_`, re-dispatches, and honors a deferred half-close when the
session did not pause again. -/
def continueDecoding (script : List DecodeStep) (s : CMState) : CMState × List DecodeStep :=
  let r := dispatch script { s with stopped := false }
  if !r.1.stopped && r.1.half_closed then
    (closeConn CloseType.FlushWrite (resetAllMessages false r.1), r.2)
  else r

/-- Embedding of `ConnectionManager::onEvent` (lines 68-70): every
connection event triggers a full reset sweep, with the local-reset path
chosen exactly for `LocalClose`. -/
def onEvent (event : ConnectionEvent) (s : CMState) : CMState :=
  resetAllMessages (decide (event = ConnectionEvent.LocalClose)) s

/-- Registry-and-counters view of a reset sweep, for studying
`resetAllMessages` against an arbitrary reset notification: the registry,
the two destroy-with-active-request counters, and the number of reset
notifications issued. -/
structure SweepState where
  registry : List ActiveMessage
  local_cnt : Nat
  remote_cnt : Nat
  resets : Nat
deriving DecidableEq, Repr

/-- The `resetAllMessages` loop with the front message's reset notification
abstracted as an arbitrary transformation `onReset` of the registry (its
net effect on the registry by the time the notification returns), fuelled:
each iteration increments the counter selected by `local_reset` and issues
one notification. -/
def resetSweepGen (onReset : List ActiveMessage → List ActiveMessage) (local_reset : Bool) :
    Nat → SweepState → SweepState
  | 0, s => s
  | fuel + 1, s =>
      if s.registry.isEmpty then s
      else
        resetSweepGen onReset local_reset fuel
          { registry := onReset s.registry,
            local_cnt := s.local_cnt + (if local_reset then 1 else 0),
            remote_cnt := s.remote_cnt + (if local_reset then 0 else 1),
            resets := s.resets + 1 }

/-- Messages produced by consecutive `newDecoderEventHandler` calls, first
fresh id `n`: arrival order, ascending ids, filter chains built. -/
def mkMessages : Nat → List (Option MessageMetadata) → List ActiveMessage
  | _, [] => []
  | n, md :: rest =>
      { id := n, metadata := md, filter_chain_built := true } :: mkMessages (n + 1) rest

/-- A decoder call that neither pauses, nor underflows, nor raises: the
dispatch loop proceeds past it to the next call. -/
def stepContinues : DecodeStep → Bool
  | DecodeStep.step _ _ status underflow => decide (status = FilterStatus.Continue) && !underflow
  | DecodeStep.raiseErr _ _ => false

/-- State effect of a run of decoder calls, ignoring their control
outcome. -/
def runSteps (steps : List DecodeStep) (s : CMState) : CMState :=
  steps.foldl
    (fun t st =>
      match st with
      | DecodeStep.step c k _ _ => applyStep c k t
      | DecodeStep.raiseErr c k => applyStep c k t) s

/-- All-zero counters. -/
def zeroStats : Stats :=
  { request_event := 0, request_decoding_error := 0, local_response_success := 0,
    local_response_error := 0, local_response_business_exception := 0,
    cx_destroy_local_with_active_rq := 0, cx_destroy_remote_with_active_rq := 0 }

/-- A freshly initialized session on an open connection. -/
def initState : CMState :=
  { request_buffer := 0, active_message_list := [], stopped := false, half_closed := false,
    conn := { state := ConnState.Open, writes := [], closes := [] },
    stats := zeroStats, deferred_deletes := [], next_id := 0 }

/-- A sample in-flight message with no metadata yet. -/
def sampleMessage : ActiveMessage := { id := 0, metadata := none, filter_chain_built := true }

/-- A session with exactly `sampleMessage` linked in the registry. -/
def linkedState : CMState := { initState with active_message_list := [sampleMessage], next_id := 1 }

/-- A session whose downstream connection has already closed. -/
def closedState : CMState :=
  { initState with conn := { state := ConnState.Closed, writes := [], closes := [] } }

/-- Metadata of a decoded one-way request. -/
def onewayMetadata : MessageMetadata :=
  { message_type := MessageType.Oneway, response_status := none, event_flag := false }

/-- Metadata of a decoded plain request. -/
def requestMetadata : MessageMetadata :=
  { message_type := MessageType.Request, response_status := none, event_flag := false }

/-- A decoder script: one call that creates a one-way message, consumes one
byte, and pauses the session. -/
def onewayPauseScript : List DecodeStep :=
  [DecodeStep.step [some onewayMetadata] 1 FilterStatus.StopIteration false]

/-- A decoder script: one call that creates a plain request, consumes one
byte, and pauses the session. -/
def requestPauseScript : List DecodeStep :=
  [DecodeStep.step [some requestMetadata] 1 FilterStatus.StopIteration false]

/-- A decoder script: one continuing call that creates a plain request,
then a call that raises a decode error, then a further (never reached)
call. -/
def errorScript : List DecodeStep :=
  [DecodeStep.step [some requestMetadata] 1 FilterStatus.Continue false,
   DecodeStep.raiseErr [] 1,
   DecodeStep.step [] 1 FilterStatus.Continue true]

/-- The session state and script remainder after `onData` has moved the
received bytes into the read buffer and run the dispatch loop; the point at
which the `end_stream` handling inspects the session. -/
def postDispatch (script : List DecodeStep) (data_len : Nat) (s : CMState) :
    CMState × List DecodeStep :=
  dispatch script { s with request_buffer := s.request_buffer + data_len }

/-- Registry evolution of the abstract sweep: the registry after `fuel`
bounded iterations of applying the reset notification to a non-empty
registry. -/
def sweepRegistry (onReset : List ActiveMessage → List ActiveMessage) :
    Nat → List ActiveMessage → List ActiveMessage
  | 0, l => l
  | fuel + 1, l => if l.isEmpty then l else sweepRegistry onReset fuel (onReset l)

/-- Number of iterations the abstract sweep performs within `fuel`. -/
def sweepCount (onReset : List ActiveMessage → List ActiveMessage) :
    Nat → List ActiveMessage → Nat
  | 0, _ => 0
  | fuel + 1, l => if l.isEmpty then 0 else sweepCount onReset fuel (onReset l) + 1

/-- Adding zero destroy-counter increments is the identity. -/
theorem addDestroy_zero (b : Bool) (st : Stats) : addDestroy b 0 st = st := by
  cases b <;> simp [addDestroy]

/-- Folding one destroy-counter increment into an accumulated bump. -/
theorem addDestroy_incDestroy (b : Bool) (n : Nat) (st : Stats) :
    addDestroy b n (incDestroy b st) = addDestroy b (n + 1) st := by
  cases b <;> simp [addDestroy, incDestroy, Nat.add_comm, Nat.add_assoc, Nat.add_left_comm]

/-- Unlinking the front message: `deferredMessage` on the head of the
registry removes exactly the head and queues it for deferred
destruction. -/
theorem deferredMessage_head (m : ActiveMessage) (rest : List ActiveMessage) (s : CMState)
    (h : s.active_message_list = m :: rest) :
    deferredMessage m.id s =
      { s with active_message_list := rest, deferred_deletes := s.deferred_deletes ++ [m] } := by
  simp [deferredMessage, h, List.find?_cons_of_pos, List.eraseP_cons_of_pos]

/-- Characterization of the fuelled `resetAllMessages` loop: with fuel at
least the registry length, the sweep empties the registry, queues every
message for deferred destruction in order, and bumps the selected destroy
counter once per message. -/
theorem resetAllMessagesFuel_spec (b : Bool) (fuel : Nat) :
    ∀ s : CMState, s.active_message_list.length ≤ fuel →
      resetAllMessagesFuel b fuel s =
        { s with active_message_list := [],
                 deferred_deletes := s.deferred_deletes ++ s.active_message_list,
                 stats := addDestroy b s.active_message_list.length s.stats } := by
  induction fuel with
  | zero =>
      intro s h
      obtain ⟨rb, aml, stp, hc, cn, sts, dd, ni⟩ := s
      have hnil : aml = [] := List.eq_nil_of_length_eq_zero (Nat.le_zero.mp h)
      subst hnil
      simp [resetAllMessagesFuel, addDestroy_zero]
  | succ n ih =>
      intro s h
      obtain ⟨rb, aml, stp, hc, cn, sts, dd, ni⟩ := s
      cases aml with
      | nil => simp [resetAllMessagesFuel, addDestroy_zero]
      | cons m rest =>
          have hstep :
              onResetFront
                  { request_buffer := rb, active_message_list := m :: rest, stopped := stp,
                    half_closed := hc, conn := cn, stats := incDestroy b sts,
                    deferred_deletes := dd, next_id := ni } =
                { request_buffer := rb, active_message_list := rest, stopped := stp,
                  half_closed := hc, conn := cn, stats := incDestroy b sts,
                  deferred_deletes := dd ++ [m], next_id := ni } := by
            rw [onResetFront]
            simp only [List.head?_cons]
            exact deferredMessage_head m rest _ rfl
          have hlen : rest.length ≤ n := by
            simpa using Nat.succ_le_succ_iff.mp (by simpa using h)
          have hrec := ih
            { request_buffer := rb, active_message_list := rest, stopped := stp,
              half_closed := hc, conn := cn, stats := incDestroy b sts,
              deferred_deletes := dd ++ [m], next_id := ni } (by simpa using hlen)
          simp only [resetAllMessagesFuel, List.isEmpty_cons, Bool.false_eq_true, if_false]
          rw [hstep, hrec]
          simp [addDestroy_incDestroy, List.append_assoc]

/-- `resetAllMessages` empties the registry, queues all messages in order
for deferred destruction, bumps the selected destroy counter once per
message, and leaves every other component of the session untouched. -/
theorem resetAllMessages_spec (b : Bool) (s : CMState) :
    resetAllMessages b s =
      { s with active_message_list := [],
               deferred_deletes := s.deferred_deletes ++ s.active_message_list,
               stats := addDestroy b s.active_message_list.length s.stats } :=
  resetAllMessagesFuel_spec b s.active_message_list.length s (Nat.le_refl _)

/-- A run of `newDecoderEventHandler` calls appends the created messages,
in call order and with ascending fresh ids, at the tail of the registry,
and touches nothing else. -/
theorem createMessages_eq (created : List (Option MessageMetadata)) :
    ∀ s : CMState,
      createMessages created s =
        { s with active_message_list := s.active_message_list ++ mkMessages s.next_id created,
                 next_id := s.next_id + created.length } := by
  induction created with
  | nil =>
      intro s
      obtain ⟨rb, aml, stp, hc, cn, sts, dd, ni⟩ := s
      simp [createMessages, mkMessages]
  | cons md rest ih =>
      intro s
      obtain ⟨rb, aml, stp, hc, cn, sts, dd, ni⟩ := s
      have hcons : createMessages (md :: rest)
            ⟨rb, aml, stp, hc, cn, sts, dd, ni⟩ =
          createMessages rest
            ⟨rb, aml ++ [{ id := ni, metadata := md, filter_chain_built := true }], stp, hc, cn,
              sts, dd, ni + 1⟩ := by
        simp [createMessages, newDecoderEventHandler]
      rw [hcons, ih]
      simp [mkMessages, List.append_assoc, Nat.add_comm, Nat.add_assoc, Nat.add_left_comm]

/-- The created messages carry exactly the supplied metadata, in arrival
order. -/
theorem mkMessages_map_metadata (created : List (Option MessageMetadata)) :
    ∀ n : Nat, (mkMessages n created).map (fun m => m.metadata) = created := by
  induction created with
  | nil => intro n; simp [mkMessages]
  | cons md rest ih => intro n; simp [mkMessages, ih]

/-- One decoder call's state effect written out as a record update. -/
theorem applyStep_eq (created : List (Option MessageMetadata)) (consumed : Nat) (s : CMState) :
    applyStep created consumed s =
      { s with request_buffer := s.request_buffer - consumed,
               active_message_list := s.active_message_list ++ mkMessages s.next_id created,
               next_id := s.next_id + created.length } := by
  obtain ⟨rb, aml, stp, hc, cn, sts, dd, ni⟩ := s
  rw [applyStep, createMessages_eq]
  simp [drainBuffer]

/-- Decoder calls never touch the connection, the counters, the flags or
the deferred-deletion queue. -/
theorem applyStep_preserve (created : List (Option MessageMetadata)) (consumed : Nat)
    (s : CMState) :
    (applyStep created consumed s).conn = s.conn ∧
    (applyStep created consumed s).stats = s.stats ∧
    (applyStep created consumed s).stopped = s.stopped ∧
    (applyStep created consumed s).half_closed = s.half_closed ∧
    (applyStep created consumed s).deferred_deletes = s.deferred_deletes := by
  rw [applyStep_eq]
  exact ⟨rfl, rfl, rfl, rfl, rfl⟩

/-- A run of decoder calls never touches the connection, the counters, the
flags or the deferred-deletion queue. -/
theorem runSteps_preserve (steps : List DecodeStep) :
    ∀ s : CMState,
      (runSteps steps s).conn = s.conn ∧
      (runSteps steps s).stats = s.stats ∧
      (runSteps steps s).stopped = s.stopped ∧
      (runSteps steps s).half_closed = s.half_closed ∧
      (runSteps steps s).deferred_deletes = s.deferred_deletes := by
  induction steps with
  | nil => intro s; simp [runSteps]
  | cons st rest ih =>
      intro s
      cases st with
      | step c k status u =>
          have h1 := applyStep_preserve c k s
          have h2 := ih (applyStep c k s)
          simp only [runSteps, List.foldl_cons] at *
          exact ⟨h2.1.trans h1.1, h2.2.1.trans h1.2.1, h2.2.2.1.trans h1.2.2.1,
                 h2.2.2.2.1.trans h1.2.2.2.1, h2.2.2.2.2.trans h1.2.2.2.2⟩
      | raiseErr c k =>
          have h1 := applyStep_preserve c k s
          have h2 := ih (applyStep c k s)
          simp only [runSteps, List.foldl_cons] at *
          exact ⟨h2.1.trans h1.1, h2.2.1.trans h1.2.1, h2.2.2.1.trans h1.2.2.1,
                 h2.2.2.2.1.trans h1.2.2.2.1, h2.2.2.2.2.trans h1.2.2.2.2⟩

/-- The dispatch loop never touches the connection, the counters, the
half-close flag or the deferred-deletion queue; and when it exits through a
raised decode exception it has not changed the `stopped_` flag. -/
theorem runLoop_preserve (script : List DecodeStep) :
    ∀ s : CMState,
      (runLoop script s).1.conn = s.conn ∧
      (runLoop script s).1.stats = s.stats ∧
      (runLoop script s).1.half_closed = s.half_closed ∧
      (runLoop script s).1.deferred_deletes = s.deferred_deletes ∧
      ((runLoop script s).2.2 = true → (runLoop script s).1.stopped = s.stopped) := by
  induction script with
  | nil => intro s; simp [runLoop]
  | cons st rest ih =>
      intro s
      cases st with
      | step c k status u =>
          have h1 := applyStep_preserve c k s
          by_cases hs : status = FilterStatus.StopIteration
          · subst hs
            simp only [runLoop, if_pos rfl]
            refine ⟨h1.1, h1.2.1, h1.2.2.2.1, h1.2.2.2.2, ?_⟩
            intro hcontra
            simp at hcontra
          · rw [runLoop, if_neg hs]
            by_cases hu : u = true
            · subst hu
              simp only [if_pos rfl]
              refine ⟨h1.1, h1.2.1, h1.2.2.2.1, h1.2.2.2.2, ?_⟩
              intro hcontra
              simp at hcontra
            · have hu' : u = false := Bool.eq_false_iff.mpr hu
              subst hu'
              simp only [Bool.false_eq_true, if_false]
              have h2 := ih (applyStep c k s)
              exact ⟨h2.1.trans h1.1, h2.2.1.trans h1.2.1, h2.2.2.1.trans h1.2.2.2.1,
                     h2.2.2.2.1.trans h1.2.2.2.2,
                     fun hr => (h2.2.2.2.2 hr).trans h1.2.2.1⟩
      | raiseErr c k =>
          have h1 := applyStep_preserve c k s
          simp only [runLoop]
          exact ⟨h1.1, h1.2.1, h1.2.2.2.1, h1.2.2.2.2, fun _ => h1.2.2.1⟩

/-- While every decoder call continues, the dispatch loop folds their state
effects; a subsequent raising call ends the loop with `raised = true`, the
remainder of the script untouched. -/
theorem runLoop_continues_raise (pre : List DecodeStep) :
    ∀ s : CMState, (∀ st ∈ pre, stepContinues st = true) →
      ∀ (c : List (Option MessageMetadata)) (k : Nat) (post : List DecodeStep),
        runLoop (pre ++ DecodeStep.raiseErr c k :: post) s =
          (applyStep c k (runSteps pre s), post, true) := by
  induction pre with
  | nil =>
      intro s _ c k post
      simp [runLoop, runSteps]
  | cons st rest ih =>
      intro s hpre c k post
      have hst : stepContinues st = true := hpre st (List.mem_cons_self st rest)
      have hrest : ∀ x ∈ rest, stepContinues x = true :=
        fun x hx => hpre x (List.mem_cons_of_mem st hx)
      cases st with
      | step c0 k0 status u =>
          have hcs : status = FilterStatus.Continue ∧ u = false := by
            simpa [stepContinues] using hst
          obtain ⟨hcs1, hcs2⟩ := hcs
          subst hcs1; subst hcs2
          have hns : (FilterStatus.Continue = FilterStatus.StopIteration) = False := by
            simp
          rw [List.cons_append, runLoop]
          rw [if_neg (by simp)]
          simp only [Bool.false_eq_true, if_false]
          rw [ih (applyStep c0 k0 s) hrest c k post]
          simp [runSteps]
      | raiseErr c0 k0 =>
          simp [stepContinues] at hst

/-- Case analysis facts about `dispatch`: its no-op guards, preservation of
the half-close flag, and that whenever it leaves the session stopped it has
not touched the connection (a pause exit never closes nor writes). -/
theorem dispatch_cases (script : List DecodeStep) (s : CMState) :
    (s.request_buffer = 0 → dispatch script s = (s, script)) ∧
    (s.stopped = true → dispatch script s = (s, script)) ∧
    (dispatch script s).1.half_closed = s.half_closed ∧
    ((dispatch script s).1.stopped = true → (dispatch script s).1.conn = s.conn) := by
  have hrl := runLoop_preserve script s
  by_cases h0 : s.request_buffer = 0
  · refine ⟨fun _ => by rw [dispatch, if_pos h0], fun _ => by rw [dispatch, if_pos h0], ?_, ?_⟩
    · rw [dispatch, if_pos h0]
    · rw [dispatch, if_pos h0]
      exact fun _ => rfl
  · by_cases hstp : s.stopped = true
    · have hd : dispatch script s = (s, script) := by
        rw [dispatch, if_neg h0, if_pos hstp]
      exact ⟨fun hc => absurd hc h0, fun _ => hd, by rw [hd], by rw [hd]; exact fun _ => rfl⟩
    · have hstp' : s.stopped = false := Bool.eq_false_iff.mpr hstp
      have hd : dispatch script s =
          if (runLoop script s).2.2 then
            (resetAllMessages true
              (incDecodingError (closeConn CloseType.NoFlush (runLoop script s).1)),
              (runLoop script s).2.1)
          else ((runLoop script s).1, (runLoop script s).2.1) := by
        rw [dispatch, if_neg h0, if_neg hstp]
      refine ⟨fun hc => absurd hc h0, fun hc => absurd hc hstp, ?_, ?_⟩
      · rw [hd]
        by_cases hr : (runLoop script s).2.2 = true
        · rw [if_pos hr]
          simp [resetAllMessages_spec, incDecodingError, closeConn, hrl.2.2.1]
        · rw [if_neg hr]
          exact hrl.2.2.1
      · rw [hd]
        by_cases hr : (runLoop script s).2.2 = true
        · rw [if_pos hr]
          intro hcontra
          have hstop : (runLoop script s).1.stopped = s.stopped := hrl.2.2.2.2 hr
          simp only [resetAllMessages_spec, incDecodingError, closeConn] at hcontra
          rw [hstop, hstp'] at hcontra
          simp at hcontra
        · rw [if_neg hr]
          exact fun _ => hrl.1

/-- C3. For every invocation of the dispatch loop in which the decoder
raises a decode error — a script of continuing calls followed by a raising
call — the loop is aborted and the remaining script is not consumed, the
connection is closed without flushing (`NoFlush`, connection left closed),
the decode-error counter is incremented exactly once, and all live
messages at the point of the error are reset through the local-reset
accounting path, emptying the registry. -/
theorem dispatch_decode_error_aborts
    (pre : List DecodeStep) (c : List (Option MessageMetadata)) (k : Nat)
    (post : List DecodeStep) (s : CMState)
    (h1 : ∀ st ∈ pre, stepContinues st = true)
    (h2 : s.request_buffer ≠ 0) (h3 : s.stopped = false) :
    (dispatch (pre ++ DecodeStep.raiseErr c k :: post) s).2 = post ∧
    (dispatch (pre ++ DecodeStep.raiseErr c k :: post) s).1.conn.closes =
      s.conn.closes ++ [CloseType.NoFlush] ∧
    (dispatch (pre ++ DecodeStep.raiseErr c k :: post) s).1.conn.state = ConnState.Closed ∧
    (dispatch (pre ++ DecodeStep.raiseErr c k :: post) s).1.conn.writes = s.conn.writes ∧
    (dispatch (pre ++ DecodeStep.raiseErr c k :: post) s).1.stats.request_decoding_error =
      s.stats.request_decoding_error + 1 ∧
    (dispatch (pre ++ DecodeStep.raiseErr c k :: post) s).1.active_message_list = [] ∧
    (dispatch (pre ++ DecodeStep.raiseErr c k :: post) s).1.deferred_deletes =
      s.deferred_deletes ++ (applyStep c k (runSteps pre s)).active_message_list ∧
    (dispatch (pre ++ DecodeStep.raiseErr c k :: post) s).1.stats.cx_destroy_local_with_active_rq =
      s.stats.cx_destroy_local_with_active_rq +
        (applyStep c k (runSteps pre s)).active_message_list.length ∧
    (dispatch (pre ++ DecodeStep.raiseErr c k :: post) s).1.stats.cx_destroy_remote_with_active_rq =
      s.stats.cx_destroy_remote_with_active_rq := by
  have hloop := runLoop_continues_raise pre s h1 c k post
  have hpre := runSteps_preserve pre s
  have hap := applyStep_preserve c k (runSteps pre s)
  have hstats : (applyStep c k (runSteps pre s)).stats = s.stats := hap.2.1.trans hpre.2.1
  have hconn : (applyStep c k (runSteps pre s)).conn = s.conn := hap.1.trans hpre.1
  have hdd : (applyStep c k (runSteps pre s)).deferred_deletes = s.deferred_deletes :=
    hap.2.2.2.2.trans hpre.2.2.2.2
  have hd : dispatch (pre ++ DecodeStep.raiseErr c k :: post) s =
      (resetAllMessages true
        (incDecodingError (closeConn CloseType.NoFlush (applyStep c k (runSteps pre s)))), post) := by
    rw [dispatch, if_neg h2, if_neg (by rw [h3]; simp), hloop]
    simp
  rw [hd]
  simp [resetAllMessages_spec, incDecodingError, closeConn, addDestroy, hstats, hconn, hdd]

/-- C1. For every `onData` call: the return value is `StopIteration`; when
`end_stream` is set and the session is paused after dispatch with the front
registry message present, carrying metadata of kind Oneway, the session
only sets `half_closed` and does not touch the connection (no close); in
every other `end_stream` case it resets all messages with
`local_reset = false` (remote destroy counter, registry emptied) and closes
the connection with `FlushWrite`. -/
theorem onData_spec (script : List DecodeStep) (data_len : Nat) (end_stream : Bool)
    (s : CMState) :
    (onData script data_len end_stream s).2 = FilterStatus.StopIteration ∧
    (end_stream = true →
      (postDispatch script data_len s).1.stopped = true →
      frontIsOneway (postDispatch script data_len s).1 = true →
      (onData script data_len end_stream s).1.1 =
        { (postDispatch script data_len s).1 with half_closed := true } ∧
      (onData script data_len end_stream s).1.1.conn = s.conn) ∧
    (end_stream = true →
      ((postDispatch script data_len s).1.stopped &&
        frontIsOneway (postDispatch script data_len s).1) = false →
      (onData script data_len end_stream s).1.1.active_message_list = [] ∧
      (onData script data_len end_stream s).1.1.conn.closes =
        (postDispatch script data_len s).1.conn.closes ++ [CloseType.FlushWrite] ∧
      (onData script data_len end_stream s).1.1.conn.state = ConnState.Closed ∧
      (onData script data_len end_stream s).1.1.stats.cx_destroy_remote_with_active_rq =
        (postDispatch script data_len s).1.stats.cx_destroy_remote_with_active_rq +
          (postDispatch script data_len s).1.active_message_list.length ∧
      (onData script data_len end_stream s).1.1.stats.cx_destroy_local_with_active_rq =
        (postDispatch script data_len s).1.stats.cx_destroy_local_with_active_rq ∧
      (onData script data_len end_stream s).1.1.deferred_deletes =
        (postDispatch script data_len s).1.deferred_deletes ++
          (postDispatch script data_len s).1.active_message_list) := by
  have heq : onData script data_len end_stream s =
      (if end_stream then
        if (postDispatch script data_len s).1.stopped &&
            frontIsOneway (postDispatch script data_len s).1 then
          (({ (postDispatch script data_len s).1 with half_closed := true },
            (postDispatch script data_len s).2), FilterStatus.StopIteration)
        else
          ((closeConn CloseType.FlushWrite
              (resetAllMessages false (postDispatch script data_len s).1),
            (postDispatch script data_len s).2), FilterStatus.StopIteration)
      else (postDispatch script data_len s, FilterStatus.StopIteration)) := rfl
  refine ⟨?_, ?_, ?_⟩
  · rw [heq]
    by_cases hes : end_stream = true
    · rw [if_pos hes]
      by_cases hc : ((postDispatch script data_len s).1.stopped &&
          frontIsOneway (postDispatch script data_len s).1) = true
      · rw [if_pos hc]
      · rw [if_neg hc]
    · rw [if_neg hes]
  · intro hes hstop how
    have hc : ((postDispatch script data_len s).1.stopped &&
        frontIsOneway (postDispatch script data_len s).1) = true := by
      rw [hstop, how]
      rfl
    rw [heq, if_pos hes, if_pos hc]
    refine ⟨rfl, ?_⟩
    have hcc := (dispatch_cases script { s with request_buffer := s.request_buffer + data_len }).2.2.2
    exact hcc hstop
  · intro hes hc
    rw [heq, if_pos hes, if_neg (by rw [hc]; simp)]
    simp [closeConn, resetAllMessages_spec, addDestroy]

/-- C8. `continueDecoding` clears the paused flag and re-invokes the
dispatch loop; if afterwards the session is not paused and the half-closed
flag is set, all messages are reset with `local_reset = false` and the
connection is closed with `FlushWrite`; if the session paused again during
the loop, the half-close stays deferred (the flag is whatever it was before
the call) and the connection stays untouched; with neither flag set the
dispatch result is returned as is. -/
theorem continueDecoding_spec (script : List DecodeStep) (s : CMState) :
    ((dispatch script { s with stopped := false }).1.stopped = false →
      (dispatch script { s with stopped := false }).1.half_closed = true →
      continueDecoding script s =
        (closeConn CloseType.FlushWrite
          (resetAllMessages false (dispatch script { s with stopped := false }).1),
          (dispatch script { s with stopped := false }).2) ∧
      (continueDecoding script s).1.active_message_list = [] ∧
      (continueDecoding script s).1.conn.closes =
        (dispatch script { s with stopped := false }).1.conn.closes ++ [CloseType.FlushWrite] ∧
      (continueDecoding script s).1.conn.state = ConnState.Closed) ∧
    ((dispatch script { s with stopped := false }).1.stopped = true →
      continueDecoding script s = dispatch script { s with stopped := false } ∧
      (continueDecoding script s).1.conn = s.conn ∧
      (continueDecoding script s).1.half_closed = s.half_closed) ∧
    ((dispatch script { s with stopped := false }).1.stopped = false →
      (dispatch script { s with stopped := false }).1.half_closed = false →
      continueDecoding script s = dispatch script { s with stopped := false }) := by
  have heq : continueDecoding script s =
      (if !(dispatch script { s with stopped := false }).1.stopped &&
          (dispatch script { s with stopped := false }).1.half_closed then
        (closeConn CloseType.FlushWrite
          (resetAllMessages false (dispatch script { s with stopped := false }).1),
          (dispatch script { s with stopped := false }).2)
      else dispatch script { s with stopped := false }) := rfl
  have hdc := dispatch_cases script { s with stopped := false }
  refine ⟨?_, ?_, ?_⟩
  · intro h1 h2
    have hc : (!(dispatch script { s with stopped := false }).1.stopped &&
        (dispatch script { s with stopped := false }).1.half_closed) = true := by
      rw [h1, h2]; rfl
    rw [heq, if_pos hc]
    simp [closeConn, resetAllMessages_spec]
  · intro h1
    have hc : (!(dispatch script { s with stopped := false }).1.stopped &&
        (dispatch script { s with stopped := false }).1.half_closed) = false := by
      rw [h1]; rfl
    rw [heq, if_neg (by rw [hc]; simp)]
    exact ⟨rfl, hdc.2.2.2 h1, hdc.2.2.1⟩
  · intro h1 h2
    have hc : (!(dispatch script { s with stopped := false }).1.stopped &&
        (dispatch script { s with stopped := false }).1.half_closed) = false := by
      rw [h1, h2]; rfl
    rw [heq, if_neg (by rw [hc]; simp)]

/-- C2. Every sequence of `newDecoderEventHandler` calls links the created
Active Messages at the tail of the Message Registry, in call order and with
ascending fresh ids, so iteration order from the front equals arrival order
and the front of the registry is the oldest live message; the created
messages carry the supplied metadata in arrival order. -/
theorem newDecoderEventHandler_order (mds : List (Option MessageMetadata)) (s : CMState) :
    createMessages mds s =
      { s with active_message_list := s.active_message_list ++ mkMessages s.next_id mds,
               next_id := s.next_id + mds.length } ∧
    (mkMessages s.next_id mds).map (fun m => m.metadata) = mds :=
  ⟨createMessages_eq mds s, mkMessages_map_metadata mds s.next_id⟩

/-- C4 counterexample. The claim states the message is still linked in the
registry when `deferredMessage` returns; on a session whose registry holds
exactly `sampleMessage`, the message is no longer linked on return —
`removeFromList` runs synchronously as the argument of `deferredDelete`. -/
theorem deferredMessage_still_linked_cex :
    sampleMessage ∈ linkedState.active_message_list ∧
    sampleMessage ∉ (deferredMessage sampleMessage.id linkedState).active_message_list := by
  decide

/-- C4 amended. `deferredMessage` is a no-op when the message is not
linked; when the message is linked, it is unlinked from the registry
synchronously — before `deferredMessage` returns — and only its destruction
is deferred past the current turn (the message is appended to the
dispatcher's deferred-deletion queue). -/
theorem deferredMessage_spec (mid : Nat) (s : CMState) :
    (s.active_message_list.find? (fun m => m.id == mid) = none →
      deferredMessage mid s = s) ∧
    (∀ m, s.active_message_list.find? (fun m => m.id == mid) = some m →
      deferredMessage mid s =
        { s with active_message_list := s.active_message_list.eraseP (fun x => x.id == mid),
                 deferred_deletes := s.deferred_deletes ++ [m] }) := by
  constructor
  · intro h
    simp [deferredMessage, h]
  · intro m h
    simp [deferredMessage, h]

/-- C4 witness. On the concrete one-message session the linked branch of
the amended statement applies: the message is unlinked and queued for
deferred destruction. -/
theorem deferredMessage_spec_witness :
    linkedState.active_message_list.find? (fun m => m.id == 0) = some sampleMessage ∧
    deferredMessage 0 linkedState =
      { linkedState with active_message_list := [], deferred_deletes := [sampleMessage] } := by
  refine ⟨by decide, ?_⟩
  rw [(deferredMessage_spec 0 linkedState).2 sampleMessage (by decide)]
  decide

/-- C6. `onHeartbeat` on a non-open connection mutates no metadata,
performs no write and no close, and creates no Active Message; on an open
connection it rewrites the metadata in place to response status Ok, message
type Response and event flag true, writes exactly one encoded heartbeat
reply buffer without closing, and creates no Active Message. -/
theorem onHeartbeat_spec (md : MessageMetadata) (s : CMState) :
    (s.conn.state ≠ ConnState.Open →
      (onHeartbeat md s).2 = md ∧
      (onHeartbeat md s).1.conn.writes = s.conn.writes ∧
      (onHeartbeat md s).1.conn.closes = s.conn.closes ∧
      (onHeartbeat md s).1.conn.state = s.conn.state ∧
      (onHeartbeat md s).1.active_message_list = s.active_message_list ∧
      (onHeartbeat md s).1.next_id = s.next_id) ∧
    (s.conn.state = ConnState.Open →
      (onHeartbeat md s).2 =
        { md with response_status := some ResponseStatus.Ok,
                  message_type := MessageType.Response, event_flag := true } ∧
      (onHeartbeat md s).1.conn.writes =
        s.conn.writes ++ [(Buffer.heartbeat (onHeartbeat md s).2, false)] ∧
      (onHeartbeat md s).1.conn.closes = s.conn.closes ∧
      (onHeartbeat md s).1.conn.state = ConnState.Open ∧
      (onHeartbeat md s).1.active_message_list = s.active_message_list ∧
      (onHeartbeat md s).1.next_id = s.next_id) := by
  constructor
  · intro h
    simp [onHeartbeat, incRequestEvent, h]
  · intro h
    simp [onHeartbeat, incRequestEvent, h, writeConn]

/-- C9. `onHeartbeat` increments the request-event counter exactly once on
every call, including on a non-open connection: the increment precedes the
open-state check, so the closed branch is the increment and nothing
else. -/
theorem onHeartbeat_counts_event (md : MessageMetadata) (s : CMState) :
    (onHeartbeat md s).1.stats.request_event = s.stats.request_event + 1 ∧
    (s.conn.state ≠ ConnState.Open → (onHeartbeat md s).1 = incRequestEvent s) := by
  constructor
  · by_cases h : s.conn.state = ConnState.Open
    · simp [onHeartbeat, incRequestEvent, h, writeConn]
    · simp [onHeartbeat, incRequestEvent, h]
  · intro h
    simp [onHeartbeat, incRequestEvent, h]

/-- C7. `sendLocalReply` is a no-op on a non-open connection; otherwise it
writes the encoded buffer, closes with `FlushWrite` exactly when
`end_stream` is requested, increments exactly the counter matching the
reported encode outcome, and creates no Active Message. The
`DirectResponse::ResponseType` enum has exactly the three modelled values,
so the aborting `NOT_REACHED` default of the routing switch is
unreachable. -/
theorem sendLocalReply_spec (rt : ResponseType) (buf : Buffer) (end_stream : Bool)
    (s : CMState) :
    (s.conn.state ≠ ConnState.Open → sendLocalReply rt buf end_stream s = s) ∧
    (s.conn.state = ConnState.Open →
      (sendLocalReply rt buf end_stream s).conn.writes = s.conn.writes ++ [(buf, end_stream)] ∧
      (sendLocalReply rt buf end_stream s).conn.closes =
        s.conn.closes ++ (if end_stream then [CloseType.FlushWrite] else []) ∧
      (sendLocalReply rt buf end_stream s).stats.local_response_success =
        s.stats.local_response_success + (if rt = ResponseType.SuccessReply then 1 else 0) ∧
      (sendLocalReply rt buf end_stream s).stats.local_response_error =
        s.stats.local_response_error + (if rt = ResponseType.ErrorReply then 1 else 0) ∧
      (sendLocalReply rt buf end_stream s).stats.local_response_business_exception =
        s.stats.local_response_business_exception +
          (if rt = ResponseType.Exception then 1 else 0) ∧
      (sendLocalReply rt buf end_stream s).active_message_list = s.active_message_list) := by
  constructor
  · intro h
    simp [sendLocalReply, h]
  · intro h
    cases rt <;> cases end_stream <;>
      simp [sendLocalReply, h, writeConn, closeConn]

/-- C10. Every connection event delivered to `onEvent` triggers a full
reset sweep of the Message Registry — the registry is emptied and every
message queued for deferred destruction — with the local-reset counter
chosen exactly when the event is `LocalClose` and the remote-reset counter
for every other event kind. -/
theorem onEvent_spec (event : ConnectionEvent) (s : CMState) :
    (onEvent event s).active_message_list = [] ∧
    (onEvent event s).deferred_deletes = s.deferred_deletes ++ s.active_message_list ∧
    (event = ConnectionEvent.LocalClose →
      (onEvent event s).stats.cx_destroy_local_with_active_rq =
        s.stats.cx_destroy_local_with_active_rq + s.active_message_list.length ∧
      (onEvent event s).stats.cx_destroy_remote_with_active_rq =
        s.stats.cx_destroy_remote_with_active_rq) ∧
    (event ≠ ConnectionEvent.LocalClose →
      (onEvent event s).stats.cx_destroy_remote_with_active_rq =
        s.stats.cx_destroy_remote_with_active_rq + s.active_message_list.length ∧
      (onEvent event s).stats.cx_destroy_local_with_active_rq =
        s.stats.cx_destroy_local_with_active_rq) := by
  by_cases h : event = ConnectionEvent.LocalClose
  · simp [onEvent, resetAllMessages_spec, addDestroy, h]
  · simp [onEvent, resetAllMessages_spec, addDestroy, h]

/-- Characterization of the abstract sweep loop: its registry evolves by
`sweepRegistry`, it issues `sweepCount` notifications, and the local-reset
flag only selects which counter receives one increment per iteration. -/
theorem resetSweepGen_char (onReset : List ActiveMessage → List ActiveMessage) (b : Bool)
    (fuel : Nat) :
    ∀ s : SweepState,
      resetSweepGen onReset b fuel s =
        { registry := sweepRegistry onReset fuel s.registry,
          local_cnt := s.local_cnt + (if b then sweepCount onReset fuel s.registry else 0),
          remote_cnt := s.remote_cnt + (if b then 0 else sweepCount onReset fuel s.registry),
          resets := s.resets + sweepCount onReset fuel s.registry } := by
  induction fuel with
  | zero =>
      intro s
      obtain ⟨reg, lc, rc, rs⟩ := s
      simp [resetSweepGen, sweepRegistry, sweepCount]
  | succ n ih =>
      intro s
      obtain ⟨reg, lc, rc, rs⟩ := s
      by_cases h : reg.isEmpty = true
      · simp [resetSweepGen, sweepRegistry, sweepCount, h]
      · have hgoal := ih { registry := onReset reg, local_cnt := lc + (if b then 1 else 0),
                           remote_cnt := rc + (if b then 0 else 1), resets := rs + 1 }
        rw [resetSweepGen, if_neg h, hgoal]
        rw [sweepRegistry, if_neg h, sweepCount, if_neg h]
        cases b <;> simp <;> omega

/-- When every reset notification strictly shrinks the registry, fuel equal
to the initial registry size empties it, within at most one notification
per initial entry. -/
theorem sweepRegistry_terminates (onReset : List ActiveMessage → List ActiveMessage)
    (h : ∀ l : List ActiveMessage, l ≠ [] → (onReset l).length < l.length) (fuel : Nat) :
    ∀ l : List ActiveMessage, l.length ≤ fuel →
      sweepRegistry onReset fuel l = [] ∧ sweepCount onReset fuel l ≤ l.length := by
  induction fuel with
  | zero =>
      intro l hl
      have hnil : l = [] := List.eq_nil_of_length_eq_zero (Nat.le_zero.mp hl)
      subst hnil
      simp [sweepRegistry, sweepCount]
  | succ n ih =>
      intro l hl
      by_cases he : l.isEmpty = true
      · have hnil : l = [] := List.isEmpty_iff.mp he
        subst hnil
        simp [sweepRegistry, sweepCount]
      · have hne : l ≠ [] := by
          intro hc
          rw [hc] at he
          simp at he
        have hlt := h l hne
        have hle : (onReset l).length ≤ n := Nat.lt_succ_iff.mp (Nat.lt_of_lt_of_le hlt hl)
        obtain ⟨h1, h2⟩ := ih (onReset l) hle
        constructor
        · rw [sweepRegistry, if_neg he]
          exact h1
        · rw [sweepCount, if_neg he]
          omega

/-- C5. For every sweep with a reset notification that removes at least one
message from the registry per invocation, and fuel at least the initial
registry size: the sweep terminates with the registry empty, issuing the
front-message reset notification once per iteration and at most once per
initial entry; the `local_reset` flag only selects whether the local or the
remote destroy-with-active-request counter is incremented per iteration and
makes no other difference (registry evolution and notification count are
identical for both flag values). -/
theorem resetAllMessages_sweep_spec (onReset : List ActiveMessage → List ActiveMessage)
    (h : ∀ l : List ActiveMessage, l ≠ [] → (onReset l).length < l.length)
    (local_reset : Bool) (fuel : Nat) (s : SweepState)
    (hfuel : s.registry.length ≤ fuel) :
    (resetSweepGen onReset local_reset fuel s).registry = [] ∧
    (resetSweepGen onReset local_reset fuel s).resets =
      s.resets + sweepCount onReset fuel s.registry ∧
    sweepCount onReset fuel s.registry ≤ s.registry.length ∧
    (resetSweepGen onReset true fuel s).registry =
      (resetSweepGen onReset false fuel s).registry ∧
    (resetSweepGen onReset true fuel s).resets =
      (resetSweepGen onReset false fuel s).resets ∧
    (resetSweepGen onReset local_reset fuel s).local_cnt =
      s.local_cnt + (if local_reset then sweepCount onReset fuel s.registry else 0) ∧
    (resetSweepGen onReset local_reset fuel s).remote_cnt =
      s.remote_cnt + (if local_reset then 0 else sweepCount onReset fuel s.registry) := by
  obtain ⟨h1, h2⟩ := sweepRegistry_terminates onReset h fuel s.registry hfuel
  rw [resetSweepGen_char onReset local_reset fuel s,
      resetSweepGen_char onReset true fuel s, resetSweepGen_char onReset false fuel s]
  exact ⟨h1, rfl, h2, rfl, rfl, rfl, rfl⟩

/-- C5 witness: sweeping a one-entry registry with the tail-removing reset
notification empties it in one notification, through the local counter. -/
theorem resetAllMessages_sweep_spec_witness :
    (resetSweepGen List.tail true 1
        { registry := [sampleMessage], local_cnt := 0, remote_cnt := 0, resets := 0 }).registry
      = [] ∧
    (resetSweepGen List.tail true 1
        { registry := [sampleMessage], local_cnt := 0, remote_cnt := 0, resets := 0 }).local_cnt
      = 0 + (if true then sweepCount List.tail 1 [sampleMessage] else 0) ∧
    sweepCount List.tail 1 [sampleMessage] ≤ 1 := by
  have hdec : ∀ l : List ActiveMessage, l ≠ [] → (List.tail l).length < l.length := by
    intro l hl
    cases l with
    | nil => exact absurd rfl hl
    | cons a t =>
        rw [List.tail_cons, List.length_cons]
        exact Nat.lt_succ_self t.length
  have h := resetAllMessages_sweep_spec List.tail hdec true 1
    { registry := [sampleMessage], local_cnt := 0, remote_cnt := 0, resets := 0 } (by decide)
  exact ⟨h.1, h.2.2.2.2.2.1, h.2.2.1⟩

/-- C1 witness: end-of-stream on a session paused by a one-way request —
the connection is untouched, the half-close is recorded, and `onData`
returns `StopIteration`. -/
theorem onData_spec_witness :
    (onData onewayPauseScript 1 true initState).2 = FilterStatus.StopIteration ∧
    (onData onewayPauseScript 1 true initState).1.1.conn = initState.conn ∧
    (onData onewayPauseScript 1 true initState).1.1.half_closed = true := by
  have h := onData_spec onewayPauseScript 1 true initState
  have hb := h.2.1 rfl (by decide) (by decide)
  refine ⟨h.1, hb.2, ?_⟩
  rw [hb.1]

/-- C3 witness: a decode error after one decoded request aborts the loop,
closes without flush, counts one decode error, and empties the registry. -/
theorem dispatch_decode_error_aborts_witness :
    (dispatch ([DecodeStep.step [some requestMetadata] 1 FilterStatus.Continue false] ++
        DecodeStep.raiseErr [] 1 :: [DecodeStep.step [] 1 FilterStatus.Continue true])
      { initState with request_buffer := 3 }).2 =
        [DecodeStep.step [] 1 FilterStatus.Continue true] ∧
    (dispatch ([DecodeStep.step [some requestMetadata] 1 FilterStatus.Continue false] ++
        DecodeStep.raiseErr [] 1 :: [DecodeStep.step [] 1 FilterStatus.Continue true])
      { initState with request_buffer := 3 }).1.conn.closes =
        { initState with request_buffer := 3 }.conn.closes ++ [CloseType.NoFlush] ∧
    (dispatch ([DecodeStep.step [some requestMetadata] 1 FilterStatus.Continue false] ++
        DecodeStep.raiseErr [] 1 :: [DecodeStep.step [] 1 FilterStatus.Continue true])
      { initState with request_buffer := 3 }).1.stats.request_decoding_error =
        { initState with request_buffer := 3 }.stats.request_decoding_error + 1 ∧
    (dispatch ([DecodeStep.step [some requestMetadata] 1 FilterStatus.Continue false] ++
        DecodeStep.raiseErr [] 1 :: [DecodeStep.step [] 1 FilterStatus.Continue true])
      { initState with request_buffer := 3 }).1.active_message_list = [] := by
  have h := dispatch_decode_error_aborts
    [DecodeStep.step [some requestMetadata] 1 FilterStatus.Continue false] [] 1
    [DecodeStep.step [] 1 FilterStatus.Continue true]
    { initState with request_buffer := 3 } (by decide) (by decide) (by decide)
  exact ⟨h.1, h.2.1, h.2.2.2.2.1, h.2.2.2.2.2.1⟩

/-- C6 witness: a heartbeat on the open fresh session mutates the metadata
to Ok/Response/event, writes one heartbeat reply, and creates no
message. -/
theorem onHeartbeat_spec_witness :
    (onHeartbeat requestMetadata initState).2 =
      { requestMetadata with response_status := some ResponseStatus.Ok,
                             message_type := MessageType.Response, event_flag := true } ∧
    (onHeartbeat requestMetadata initState).1.conn.writes =
      initState.conn.writes ++ [(Buffer.heartbeat (onHeartbeat requestMetadata initState).2, false)] ∧
    (onHeartbeat requestMetadata initState).1.active_message_list =
      initState.active_message_list := by
  have h := (onHeartbeat_spec requestMetadata initState).2 rfl
  exact ⟨h.1, h.2.1, h.2.2.2.2.1⟩

/-- C9 witness: a heartbeat on a closed connection still counts one request
event and does nothing else. -/
theorem onHeartbeat_counts_event_witness :
    (onHeartbeat requestMetadata closedState).1.stats.request_event =
      closedState.stats.request_event + 1 ∧
    (onHeartbeat requestMetadata closedState).1 = incRequestEvent closedState := by
  have h := onHeartbeat_counts_event requestMetadata closedState
  exact ⟨h.1, h.2 (by decide)⟩

/-- C7 witness: a success local reply on the open fresh session writes the
buffer, does not close, and counts one success. -/
theorem sendLocalReply_spec_witness :
    (sendLocalReply ResponseType.SuccessReply (Buffer.payload 7) false initState).conn.writes =
      initState.conn.writes ++ [(Buffer.payload 7, false)] ∧
    (sendLocalReply ResponseType.SuccessReply (Buffer.payload 7) false initState).conn.closes =
      initState.conn.closes ++ (if false then [CloseType.FlushWrite] else []) ∧
    (sendLocalReply ResponseType.SuccessReply (Buffer.payload 7) false initState).stats.local_response_success =
      initState.stats.local_response_success +
        (if ResponseType.SuccessReply = ResponseType.SuccessReply then 1 else 0) := by
  have h := (sendLocalReply_spec ResponseType.SuccessReply (Buffer.payload 7) false initState).2 rfl
  exact ⟨h.1, h.2.1, h.2.2.1⟩

/-- C8 witness: continuing on an idle half-closed session honors the
deferred half-close: the registry is emptied and the connection closed. -/
theorem continueDecoding_spec_witness :
    (continueDecoding [] { initState with half_closed := true }).1.conn.state =
      ConnState.Closed ∧
    (continueDecoding [] { initState with half_closed := true }).1.active_message_list = [] := by
  have h := (continueDecoding_spec [] { initState with half_closed := true }).1
    (by decide) (by decide)
  exact ⟨h.2.2.2, h.2.1⟩

/-- C10 witness: a remote-close event on a session with one live message
sweeps the registry through the remote counter. -/
theorem onEvent_spec_witness :
    (onEvent ConnectionEvent.RemoteClose linkedState).active_message_list = [] ∧
    (onEvent ConnectionEvent.RemoteClose linkedState).stats.cx_destroy_remote_with_active_rq =
      linkedState.stats.cx_destroy_remote_with_active_rq +
        linkedState.active_message_list.length := by
  have h := onEvent_spec ConnectionEvent.RemoteClose linkedState
  exact ⟨h.1, (h.2.2.2 (by decide)).1⟩

end DubboProxy
